/-
Verification of the TUO admin server (`server.js`).

The server is a small Express application: session-gated CRUD over two
language-keyed JSON documents (fleet and gallery), password login, and
image upload.  This file shallowly embeds the request handlers as pure
functions over an explicit server state and proves the specified
properties about them.

Modelling conventions:
  * JSON values are the inductive `Json`; JS objects are association
    lists (first occurrence wins on lookup, as after `JSON.parse`).
  * `undefined` is modelled as `Option.none` wherever the source can
    observe it (absent properties, absent query parameters).
  * JS string trimming is `jsTrim`, over an explicit whitespace set
    covering the common JS whitespace characters.
  * `Date.now()` is an abstract clock: handlers take the observed
    timestamps as parameters (`now`, or `nows : Nat → Nat` when the
    source calls `Date.now()` once per mapped element).
  * `bcrypt.compareSync` is an abstract collaborator
    `bc : String → String → Bool`.
  * `fs.writeFileSync` may throw; handlers that persist take a
    `writeErr : Option String` parameter (`some m` = the write threw an
    error whose `.message` is `m`), which is routed to the embedded
    Express error-handling middleware exactly as Express does for a
    synchronous throw.
-/
import Mathlib

namespace TUO

/-! ## JS-style string utilities -/

/-- The whitespace characters recognised by the embedded JS `trim`
(space, tab, LF, VT, FF, CR, NBSP, LS, PS, BOM). -/
def isSpc (c : Char) : Bool :=
  c == ' ' || c == '\t' || c == '\n' || c == '\x0b' || c == '\x0c' ||
  c == '\r' || c == '\u00a0' || c == '\u2028' || c == '\u2029' || c == '\ufeff'

/-- Drop leading whitespace. -/
def ltrim (l : List Char) : List Char := l.dropWhile isSpc

/-- Drop trailing whitespace. -/
def rtrim (l : List Char) : List Char := (l.reverse.dropWhile isSpc).reverse

/-- Drop whitespace at both ends. -/
def trimChars (l : List Char) : List Char := rtrim (ltrim l)

/-- JS `String.prototype.trim`. -/
def jsTrim (s : String) : String := String.mk (trimChars s.data)

/-- The decimal digits of `n`, most significant first (JS number-to-string
for a nonnegative integer). -/
def natChars (n : Nat) : List Char :=
  if h : n < 10 then [Nat.digitChar n]
  else natChars (n / 10) ++ [Nat.digitChar (n % 10)]
  decreasing_by exact Nat.div_lt_self (Nat.lt_of_lt_of_le (by decide) (Nat.le_of_not_lt h)) (by decide)

/-- Decimal rendering of a natural number. -/
def natRepr (n : Nat) : String := String.mk (natChars n)

/-- Decimal rendering of an integer (JS `String(number)` restricted to
integers, the only numbers in this model). -/
def intRepr (n : Int) : String :=
  if n < 0 then "-" ++ natRepr n.natAbs else natRepr n.natAbs

/-! ## JSON values -/

/-- JSON values as produced by `JSON.parse` / sent by `res.json`.
Numbers are modelled as integers. -/
inductive Json where
  | null : Json
  | bool (b : Bool) : Json
  | num (n : Int) : Json
  | str (s : String) : Json
  | arr (elems : List Json) : Json
  | obj (fields : List (String × Json)) : Json

/-- A JS object: the association list behind `Json.obj`. -/
abbrev Obj := List (String × Json)

/-- Property lookup on an object (`JSON.parse` output has unique keys;
the first occurrence wins). `none` models `undefined`. -/
def getKey : Obj → String → Option Json
  | [], _ => none
  | (k, v) :: rest, key => if k = key then some v else getKey rest key

/-- JS property assignment `data[key] = v`: overwrite in place if the key
exists, append otherwise. -/
def setKey : Obj → String → Json → Obj
  | [], key, v => [(key, v)]
  | (k, w) :: rest, key, v =>
    if k = key then (k, v) :: rest else (k, w) :: setKey rest key v

/-- JS truthiness of a JSON value. -/
def truthy : Json → Bool
  | .null => false
  | .bool b => b
  | .num n => !(n == 0)
  | .str s => !(s == "")
  | .arr _ => true
  | .obj _ => true

/-- `Array.isArray`. -/
def isArr : Json → Bool
  | .arr _ => true
  | _ => false

/-- Optional-chained property access `v?.key`: `undefined` (`none`) unless
`v` is an object carrying the key. -/
def getField : Json → String → Option Json
  | .obj fields, key => getKey fields key
  | _, _ => none

/-- JS `String(v)` (element of an array rendering as in `Array.join`). -/
def jsToString : Json → String
  | .null => "null"
  | .bool b => cond b "true" "false"
  | .num n => intRepr n
  | .str s => s
  | .obj _ => "[object Object]"
  | .arr xs =>
    String.intercalate "," (xs.attach.map fun c =>
      match c with
      | ⟨.null, _⟩ => ""
      | ⟨v, _⟩ => jsToString v)
  decreasing_by
    simp only [Json.arr.sizeOf_spec]
    calc sizeOf v < sizeOf xs := List.sizeOf_lt_of_mem (by assumption)
    _ < 1 + sizeOf xs := by omega

/-- The body of `safeString` in the source:
`(value) => String(value ?? "").trim()` applied to a possibly-undefined
property. -/
def safeString : Option Json → String
  | none => ""
  | some .null => ""
  | some v => jsTrim (jsToString v)

/-! ## Record normalizers -/

/-- A normalized fleet record (`normalizeVehicle` output shape). -/
structure Vehicle where
  id : String
  tag : String
  title : String
  text : String
  price : String
  image : String
  alt : String
  fuel : String
  transmission : String
  consumption : String
  passengers : String
deriving DecidableEq

/-- A normalized gallery record (`normalizeGalleryItem` output shape). -/
structure GalleryItem where
  id : String
  title : String
  before : String
  after : String
deriving DecidableEq

/-- The generated identifier `` `${pre}${Date.now()}-${index}` `` (with
`pre` either `"custom-"` or `"gallery-"`). -/
def genId (pre : String) (now index : Nat) : String :=
  pre ++ natRepr now ++ "-" ++ natRepr index

/-- The identifier a submitted record supplies: `safeString(rec?.id)`. -/
def suppliedId (v : Json) : String := safeString (getField v "id")

/-- `normalizeVehicle(vehicle, index)`, with the `Date.now()` value
observed by this call passed in as `now`. -/
def normalizeVehicle (now : Nat) (vehicle : Json) (index : Nat) : Vehicle :=
  let safe := fun k => safeString (getField vehicle k)
  let id := if suppliedId vehicle = "" then genId "custom-" now index
            else suppliedId vehicle
  { id := id
    tag := safe "tag"
    title := safe "title"
    text := safe "text"
    price := safe "price"
    image := safe "image"
    alt := if safe "alt" = "" then (if safe "title" = "" then "Vozilo" else safe "title")
           else safe "alt"
    fuel := safe "fuel"
    transmission := safe "transmission"
    consumption := safe "consumption"
    passengers := safe "passengers" }

/-- `normalizeGalleryItem(item, index)`. -/
def normalizeGalleryItem (now : Nat) (item : Json) (index : Nat) : GalleryItem :=
  let safe := fun k => safeString (getField item k)
  let id := if suppliedId item = "" then genId "gallery-" now index
            else suppliedId item
  { id := id
    title := safe "title"
    before := safe "before"
    after := safe "after" }

/-- Serialization of a normalized vehicle back to JSON (as stored in the
live document and sent by `res.json`). -/
def vehicleToJson (v : Vehicle) : Json :=
  .obj [("id", .str v.id), ("tag", .str v.tag), ("title", .str v.title),
        ("text", .str v.text), ("price", .str v.price), ("image", .str v.image),
        ("alt", .str v.alt), ("fuel", .str v.fuel),
        ("transmission", .str v.transmission),
        ("consumption", .str v.consumption),
        ("passengers", .str v.passengers)]

/-- Serialization of a normalized gallery item back to JSON. -/
def galleryToJson (g : GalleryItem) : Json :=
  .obj [("id", .str g.id), ("title", .str g.title),
        ("before", .str g.before), ("after", .str g.after)]

/-- JS `Array.prototype.map` when the callback also receives the index. -/
def mapIdx (f : Nat → Json → α) : Nat → List Json → List α
  | _, [] => []
  | i, x :: xs => f i x :: mapIdx f (i + 1) xs

/-- `payload.map(normalizeVehicle)`: element `i` observes clock value
`nows i`. -/
def normFleetBatch (nows : Nat → Nat) (l : List Json) : List Vehicle :=
  mapIdx (fun i v => normalizeVehicle (nows i) v i) 0 l

/-- `payload.map(normalizeGalleryItem)`. -/
def normGalleryBatch (nows : Nat → Nat) (l : List Json) : List GalleryItem :=
  mapIdx (fun i v => normalizeGalleryItem (nows i) v i) 0 l

/-! ## Authentication -/

/-- Admin-credential environment configuration. `none` = variable unset;
`some ""` = set to the empty string (falsy in JS). -/
structure Config where
  adminPassword : Option String
  adminPasswordHash : Option String

/-- JS truthiness of an environment variable. -/
def envTruthy : Option String → Bool
  | none => false
  | some s => !(s == "")

/-- The `if (plain) return password === plain; return false;` tail of
`verifyPassword`. -/
def verifyPlain (cfg : Config) (password : String) : Bool :=
  match cfg.adminPassword with
  | some p => if p == "" then false else password == p
  | none => false

/-- `verifyPassword(password)`, with `bcrypt.compareSync` abstracted as
`bc`. -/
def verifyPassword (cfg : Config) (bc : String → String → Bool)
    (password : String) : Bool :=
  match cfg.adminPasswordHash with
  | some h => if h == "" then verifyPlain cfg password else bc password h
  | none => verifyPlain cfg password

/-! ## HTTP surface -/

/-- `getLang(req)`: the `lang` query parameter when it is a string
(`none` models absent or non-string), trimmed, defaulting to `"me"`. -/
def getLang (q : Option String) : String :=
  let lang := match q with
              | some s => s
              | none => "me"
  if jsTrim lang = "" then "me" else jsTrim lang

/-- An HTTP response: status code and JSON body. -/
structure Resp where
  status : Nat
  body : Json

/-- `{ error: msg }`. -/
def errorJson (msg : String) : Json := .obj [("error", .str msg)]

/-- The catch-all error-handling middleware: falsy error ⇒ 500
`"Server error"`; otherwise 400 with `err.message || "Bad request"`. -/
def errorHandler (err : Option String) : Resp :=
  match err with
  | none => ⟨500, errorJson "Server error"⟩
  | some m => ⟨400, errorJson (if m == "" then "Bad request" else m)⟩

/-- Server state: the two live documents, the immutable in-memory default
documents, and the upload directory contents. -/
structure ServerState where
  fleet : Obj
  gallery : Obj
  defaultFleet : Obj
  defaultGallery : Obj
  uploads : List String

/-- `Array.isArray(data?.[lang]) ? data[lang] : (data?.me || [])` — the
list selection used by the GET handlers and (against the default
document) by the reset handlers. -/
def listOf (data : Obj) (lang : String) : Json :=
  match getKey data lang with
  | some (.arr xs) => .arr xs
  | _ =>
    match getKey data "me" with
    | some v => if truthy v then v else .arr []
    | none => .arr []

/-- `readFleet()` / `readGallery()` = `readJson(file, defaultDoc)`: the
parsed live document, or — when the read throws (`readErr = true`) — the
in-memory default document itself.  In the source the fallback is the
very default object, not a copy, so a handler that then assigns
`data[lang] = v` mutates the default document; the mutating handlers
below thread this aliasing explicitly. -/
def readDoc (live dflt : Obj) (readErr : Bool) : Obj :=
  if readErr then dflt else live

/-- `GET /api/fleet` (read-only; a failed read serves the default
document). -/
def listFleet (st : ServerState) (q : Option String) (readErr : Bool) : Resp :=
  ⟨200, listOf (readDoc st.fleet st.defaultFleet readErr) (getLang q)⟩

/-- `GET /api/gallery` (read-only). -/
def listGallery (st : ServerState) (q : Option String) (readErr : Bool) : Resp :=
  ⟨200, listOf (readDoc st.gallery st.defaultGallery readErr) (getLang q)⟩

/-- `PUT /api/fleet`: `requireAuth`, normalize the body array (non-array
bodies become `[]`), store under the language key, persist, echo the
normalized list.  When `readFleet` fell back to the aliased default
document (`readErr = true`), the `data[lang] = normalized` assignment
mutates `defaultFleet` itself before the write.  A throwing
`writeFileSync` (`writeErr = some m`) is caught by the error middleware
and leaves the on-disk document unchanged (the in-memory default, if
aliased, is already mutated at that point). -/
def putFleet (st : ServerState) (admin : Bool) (q : Option String)
    (body : Json) (nows : Nat → Nat) (readErr : Bool)
    (writeErr : Option String) : Resp × ServerState :=
  if admin then
    let lang := getLang q
    let payload := match body with
                   | .arr xs => xs
                   | _ => []
    let normalized := normFleetBatch nows payload
    let stored := Json.arr (normalized.map vehicleToJson)
    let data2 := setKey (readDoc st.fleet st.defaultFleet readErr) lang stored
    let st1 := if readErr then { st with defaultFleet := data2 } else st
    match writeErr with
    | some m => (errorHandler (some m), st1)
    | none => (⟨200, stored⟩, { st1 with fleet := data2 })
  else (⟨401, errorJson "Unauthorized"⟩, st)

/-- `PUT /api/gallery` (same aliasing on a failed read as `putFleet`). -/
def putGallery (st : ServerState) (admin : Bool) (q : Option String)
    (body : Json) (nows : Nat → Nat) (readErr : Bool)
    (writeErr : Option String) : Resp × ServerState :=
  if admin then
    let lang := getLang q
    let payload := match body with
                   | .arr xs => xs
                   | _ => []
    let normalized := normGalleryBatch nows payload
    let stored := Json.arr (normalized.map galleryToJson)
    let data2 := setKey (readDoc st.gallery st.defaultGallery readErr) lang stored
    let st1 := if readErr then { st with defaultGallery := data2 } else st
    match writeErr with
    | some m => (errorHandler (some m), st1)
    | none => (⟨200, stored⟩, { st1 with gallery := data2 })
  else (⟨401, errorJson "Unauthorized"⟩, st)

/-- `POST /api/fleet/reset`: store and echo the default document's list
for the language (with the `me` / `[]` fallback).  On a failed read the
`data[lang] = fallback` assignment lands in the aliased default
document. -/
def resetFleet (st : ServerState) (admin : Bool) (q : Option String)
    (readErr : Bool) (writeErr : Option String) : Resp × ServerState :=
  if admin then
    let lang := getLang q
    let fallback := listOf st.defaultFleet lang
    let data2 := setKey (readDoc st.fleet st.defaultFleet readErr) lang fallback
    let st1 := if readErr then { st with defaultFleet := data2 } else st
    match writeErr with
    | some m => (errorHandler (some m), st1)
    | none => (⟨200, fallback⟩, { st1 with fleet := data2 })
  else (⟨401, errorJson "Unauthorized"⟩, st)

/-- `POST /api/gallery/reset`. -/
def resetGallery (st : ServerState) (admin : Bool) (q : Option String)
    (readErr : Bool) (writeErr : Option String) : Resp × ServerState :=
  if admin then
    let lang := getLang q
    let fallback := listOf st.defaultGallery lang
    let data2 := setKey (readDoc st.gallery st.defaultGallery readErr) lang fallback
    let st1 := if readErr then { st with defaultGallery := data2 } else st
    match writeErr with
    | some m => (errorHandler (some m), st1)
    | none => (⟨200, fallback⟩, { st1 with gallery := data2 })
  else (⟨401, errorJson "Unauthorized"⟩, st)

/-- A PUT request body as it reaches the `express.json` middleware:
either raw JSON text that parses to `v`, or a request whose content type
the JSON parser does not handle (`req.body` then stays `{}`). -/
inductive Body where
  | json (v : Json) : Body
  | noJson : Body

/-- `express.json`'s default `strict` mode: only top-level objects and
arrays are accepted; any other top-level JSON value is rejected by the
middleware before the route runs. -/
def jsonStrictOk : Json → Bool
  | .obj _ => true
  | .arr _ => true
  | _ => false

/-- The message of the `SyntaxError` body-parser raises on a strict-mode
rejection (modelled as a fixed string). -/
def strictRejectMsg : String := "invalid JSON"

/-- The full `PUT /api/fleet` route: `express.json` (strict parse) runs
before the session guard and handler, so a strict-mode rejection is
routed to the error middleware and the handler is never reached. -/
def putFleetRoute (st : ServerState) (admin : Bool) (q : Option String)
    (body : Body) (nows : Nat → Nat) (readErr : Bool)
    (writeErr : Option String) : Resp × ServerState :=
  match body with
  | .json v =>
    if jsonStrictOk v then putFleet st admin q v nows readErr writeErr
    else (errorHandler (some strictRejectMsg), st)
  | .noJson => putFleet st admin q (Json.obj []) nows readErr writeErr

/-- The full `PUT /api/gallery` route. -/
def putGalleryRoute (st : ServerState) (admin : Bool) (q : Option String)
    (body : Body) (nows : Nat → Nat) (readErr : Bool)
    (writeErr : Option String) : Resp × ServerState :=
  match body with
  | .json v =>
    if jsonStrictOk v then putGallery st admin q v nows readErr writeErr
    else (errorHandler (some strictRejectMsg), st)
  | .noJson => putGallery st admin q (Json.obj []) nows readErr writeErr

/-- `POST /api/auth/login`: the session is the boolean admin flag.
Returns the response and the new session flag. -/
def login (sess : Bool) (cfg : Config) (bc : String → String → Bool)
    (body : Json) : Resp × Bool :=
  let password := match getField body "password" with
                  | some (.str s) => s
                  | _ => ""
  if password == "" then (⟨400, errorJson "Missing password"⟩, sess)
  else if verifyPassword cfg bc password then
    (⟨200, .obj [("ok", .bool true)]⟩, true)
  else (⟨401, errorJson "Invalid password"⟩, sess)

/-- `GET /api/auth/me`. -/
def meEndpoint (sess : Bool) : Resp :=
  ⟨200, .obj [("authed", .bool sess)]⟩

/-- JS `String.prototype.startsWith` (executable prefix test). -/
def strStartsWith (s pre : String) : Bool := pre.data.isPrefixOf s.data

/-- An uploaded file as multer sees it. -/
structure UFile where
  originalname : String
  mimetype : String
  size : Nat

/-- Simplified `path.extname`: the suffix starting at the last dot,
`""` when there is no dot. -/
def extAux : List Char → Option (List Char)
  | [] => none
  | '.' :: rest =>
    (match extAux rest with
     | some e => some e
     | none => some ('.' :: rest))
  | _ :: rest => extAux rest

/-- `path.extname` on a plain file name. -/
def extname (s : String) : String :=
  match extAux s.data with
  | some e => String.mk e
  | none => ""

/-- The stored filename `` `${Date.now()}-${randomHex}${ext}` ``. -/
def uploadName (now : Nat) (hex : String) (originalname : String) : String :=
  natRepr now ++ "-" ++ hex ++ (extname originalname).toLower

/-- `POST /api/upload`: `requireAuth`, then multer's `fileFilter`
(mimetype must start with `"image/"`) and 5 MiB size limit, then the
handler.  Rejections are routed through the error middleware; accepted
files are appended to the upload directory. -/
def postUpload (st : ServerState) (admin : Bool) (file : Option UFile)
    (now : Nat) (hex : String) : Resp × ServerState :=
  if admin then
    match file with
    | none => (⟨400, errorJson "No file"⟩, st)
    | some f =>
      if strStartsWith f.mimetype "image/" then
        if f.size ≤ 5 * 1024 * 1024 then
          let name := uploadName now hex f.originalname
          (⟨200, .obj [("url", .str ("/uploads/" ++ name))]⟩,
           { st with uploads := st.uploads ++ [name] })
        else (errorHandler (some "File too large"), st)
      else (errorHandler (some "Only images are allowed"), st)
  else (⟨401, errorJson "Unauthorized"⟩, st)

/-! ## Operation sequences -/

/-- One data-plane request (for stating invariants over arbitrary request
sequences); each state-reading request carries whether its storage read
threw. -/
inductive Op where
  | listF (q : Option String) (readErr : Bool) : Op
  | listG (q : Option String) (readErr : Bool) : Op
  | putF (admin : Bool) (q : Option String) (body : Json)
      (nows : Nat → Nat) (readErr : Bool) (writeErr : Option String) : Op
  | putG (admin : Bool) (q : Option String) (body : Json)
      (nows : Nat → Nat) (readErr : Bool) (writeErr : Option String) : Op
  | resetF (admin : Bool) (q : Option String) (readErr : Bool)
      (writeErr : Option String) : Op
  | resetG (admin : Bool) (q : Option String) (readErr : Bool)
      (writeErr : Option String) : Op
  | uploadOp (admin : Bool) (file : Option UFile) (now : Nat) (hex : String) : Op

/-- Execute one request against the server state. -/
def step (st : ServerState) : Op → ServerState
  | .listF _ _ => st
  | .listG _ _ => st
  | .putF admin q body nows r w => (putFleet st admin q body nows r w).2
  | .putG admin q body nows r w => (putGallery st admin q body nows r w).2
  | .resetF admin q r w => (resetFleet st admin q r w).2
  | .resetG admin q r w => (resetGallery st admin q r w).2
  | .uploadOp admin file now hex => (postUpload st admin file now hex).2

/-- Execute a sequence of requests. -/
def runOps (st : ServerState) : List Op → ServerState
  | [] => st
  | op :: rest => runOps (step st op) rest

/-- Whether a request's storage read succeeded (list and upload requests
never reach the aliasing fallback state change). -/
def opReadOk : Op → Bool
  | .listF _ _ => true
  | .listG _ _ => true
  | .putF _ _ _ _ r _ => !r
  | .putG _ _ _ _ r _ => !r
  | .resetF _ _ r _ => !r
  | .resetG _ _ r _ => !r
  | .uploadOp _ _ _ _ => true

/-! ## Auxiliary definitions for the statements and proofs -/

/-- A string is trimmed when trimming leaves it unchanged. -/
def Trimmed (s : String) : Prop := jsTrim s = s

/-- Decimal parsing accumulator, inverse to `natChars`. -/
def parseAcc (a : Nat) (l : List Char) : Nat :=
  l.foldl (fun acc c => acc * 10 + (c.toNat - 48)) a

/-- All eleven fields of a normalized vehicle are trimmed strings. -/
def VehicleTrimmed (v : Vehicle) : Prop :=
  Trimmed v.id ∧ Trimmed v.tag ∧ Trimmed v.title ∧ Trimmed v.text ∧
  Trimmed v.price ∧ Trimmed v.image ∧ Trimmed v.alt ∧ Trimmed v.fuel ∧
  Trimmed v.transmission ∧ Trimmed v.consumption ∧ Trimmed v.passengers

/-- All four fields of a normalized gallery item are trimmed strings. -/
def GalleryTrimmed (g : GalleryItem) : Prop :=
  Trimmed g.id ∧ Trimmed g.title ∧ Trimmed g.before ∧ Trimmed g.after

/-- Every language key of a document holds a JSON array (the shape the
spec's data model prescribes for language documents). -/
def wellShaped (d : Obj) : Bool :=
  d.all fun kv => isArr kv.2

/-- The default vehicle used only as the out-of-range value of
`List.getD`. -/
def emptyVehicle : Vehicle :=
  ⟨"", "", "", "", "", "", "", "", "", "", ""⟩

/-- The default gallery item used only as the out-of-range value of
`List.getD`. -/
def emptyGalleryItem : GalleryItem := ⟨"", "", "", ""⟩

/-- Whether `d` maps `key` to a JSON array. -/
def isArrAt (d : Obj) (key : String) : Bool :=
  match getKey d key with
  | some v => isArr v
  | none => false

/-- The replace contract for the fleet endpoint: echoing an array body
`l`, the response and the subsequently listed data are the normalized
batch, of the same length as `l`; every record is fully trimmed with a
non-empty id; supplied ids are kept; generated ids are pairwise distinct
within the batch. -/
def FleetReplaceOk (st : ServerState) (q : Option String) (nows : Nat → Nat)
    (l : List Json) : Prop :=
  (putFleet st true q (Json.arr l) nows false none).1.status = 200 ∧
  (putFleet st true q (Json.arr l) nows false none).1.body =
    Json.arr ((normFleetBatch nows l).map vehicleToJson) ∧
  (normFleetBatch nows l).length = l.length ∧
  (listFleet (putFleet st true q (Json.arr l) nows false none).2 q false).body =
    Json.arr ((normFleetBatch nows l).map vehicleToJson) ∧
  (∀ i, i < l.length →
    VehicleTrimmed ((normFleetBatch nows l).getD i emptyVehicle) ∧
    ((normFleetBatch nows l).getD i emptyVehicle).id ≠ "" ∧
    (suppliedId (l.getD i Json.null) ≠ "" →
      ((normFleetBatch nows l).getD i emptyVehicle).id =
        suppliedId (l.getD i Json.null))) ∧
  (∀ i j, i < l.length → j < l.length → i ≠ j →
    suppliedId (l.getD i Json.null) = "" → suppliedId (l.getD j Json.null) = "" →
    ((normFleetBatch nows l).getD i emptyVehicle).id ≠
      ((normFleetBatch nows l).getD j emptyVehicle).id)

/-- The replace contract for the gallery endpoint (see
`FleetReplaceOk`). -/
def GalleryReplaceOk (st : ServerState) (q : Option String) (nows : Nat → Nat)
    (l : List Json) : Prop :=
  (putGallery st true q (Json.arr l) nows false none).1.status = 200 ∧
  (putGallery st true q (Json.arr l) nows false none).1.body =
    Json.arr ((normGalleryBatch nows l).map galleryToJson) ∧
  (normGalleryBatch nows l).length = l.length ∧
  (listGallery (putGallery st true q (Json.arr l) nows false none).2 q false).body =
    Json.arr ((normGalleryBatch nows l).map galleryToJson) ∧
  (∀ i, i < l.length →
    GalleryTrimmed ((normGalleryBatch nows l).getD i emptyGalleryItem) ∧
    ((normGalleryBatch nows l).getD i emptyGalleryItem).id ≠ "" ∧
    (suppliedId (l.getD i Json.null) ≠ "" →
      ((normGalleryBatch nows l).getD i emptyGalleryItem).id =
        suppliedId (l.getD i Json.null))) ∧
  (∀ i j, i < l.length → j < l.length → i ≠ j →
    suppliedId (l.getD i Json.null) = "" → suppliedId (l.getD j Json.null) = "" →
    ((normGalleryBatch nows l).getD i emptyGalleryItem).id ≠
      ((normGalleryBatch nows l).getD j emptyGalleryItem).id)

/-- The reset contract for one domain: against default document `dflt`
and response `resp`, the response is the default document's list for the
language (with the `me` / empty fallback when the language is absent). -/
def ResetBodyOk (dflt : Obj) (lang : String) (resp : Resp) : Prop :=
  resp.status = 200 ∧
  (∀ xs, getKey dflt lang = some (Json.arr xs) → resp.body = Json.arr xs) ∧
  (getKey dflt lang = none →
    (∀ ys, getKey dflt "me" = some (Json.arr ys) → resp.body = Json.arr ys) ∧
    (getKey dflt "me" = none → resp.body = Json.arr []))

/-- The list contract for one domain: against live document `data` and
response `resp`, the requested language's list is returned when it is
one, with the `me` / empty fallback otherwise. -/
def ListBodyOk (data : Obj) (lang : String) (resp : Resp) : Prop :=
  resp.status = 200 ∧
  (∀ xs, getKey data lang = some (Json.arr xs) → resp.body = Json.arr xs) ∧
  (isArrAt data lang = false →
    (∀ ys, getKey data "me" = some (Json.arr ys) → resp.body = Json.arr ys) ∧
    (getKey data "me" = none → resp.body = Json.arr []))

/-- A concrete server state used by witnesses and counterexamples. -/
def st0 : ServerState :=
  ⟨[("me", Json.arr [Json.num 1])], [("me", Json.arr [Json.num 2])],
   [("me", Json.arr [Json.num 3])], [("me", Json.arr [Json.num 4])], []⟩

/-! ## Lemmas: trimming -/

theorem dropWhile_dropWhile_self (p : Char → Bool) (l : List Char) :
    (l.dropWhile p).dropWhile p = l.dropWhile p := by
  induction l with
  | nil => rfl
  | cons a t ih =>
    by_cases h : p a
    · simpa [List.dropWhile, h] using ih
    · simp [List.dropWhile, h]

theorem length_dropWhile_le' (p : Char → Bool) (l : List Char) :
    (l.dropWhile p).length ≤ l.length := by
  induction l with
  | nil => exact Nat.le_refl _
  | cons a t ih =>
    by_cases h : p a
    · simp only [List.dropWhile, h]
      exact Nat.le_trans ih (Nat.le_succ _)
    · simp [List.dropWhile, h]

theorem dropWhile_append_last (p : Char → Bool) (a : Char) (h : p a = false)
    (l : List Char) :
    (l ++ [a]).dropWhile p = l.dropWhile p ++ [a] := by
  induction l with
  | nil => simp [List.dropWhile, h]
  | cons b t ih =>
    by_cases hb : p b
    · simpa [List.dropWhile, hb] using ih
    · simp [List.dropWhile, hb]

theorem ltrim_ltrim (l : List Char) : ltrim (ltrim l) = ltrim l :=
  dropWhile_dropWhile_self isSpc l

theorem rtrim_rtrim (l : List Char) : rtrim (rtrim l) = rtrim l := by
  simp [rtrim, dropWhile_dropWhile_self]

theorem rtrim_cons (a : Char) (h : isSpc a = false) (t : List Char) :
    rtrim (a :: t) = a :: rtrim t := by
  simp [rtrim, dropWhile_append_last isSpc a h]

theorem head_of_ltrim_fix {a : Char} {t : List Char}
    (h : ltrim (a :: t) = a :: t) : isSpc a = false := by
  by_cases ha : isSpc a
  · exfalso
    have h1 : ltrim (a :: t) = t.dropWhile isSpc := by
      simp [ltrim, List.dropWhile, ha]
    have h2 : (t.dropWhile isSpc).length ≤ t.length := length_dropWhile_le' _ _
    rw [h] at h1
    have := congrArg List.length h1
    simp at this
    omega
  · simpa using ha

theorem ltrim_rtrim_of_fix {l : List Char} (h : ltrim l = l) :
    ltrim (rtrim l) = rtrim l := by
  cases l with
  | nil => rfl
  | cons a t =>
    have ha : isSpc a = false := head_of_ltrim_fix h
    rw [rtrim_cons a ha]
    simp [ltrim, List.dropWhile, ha]

theorem trimChars_trimChars (l : List Char) :
    trimChars (trimChars l) = trimChars l := by
  unfold trimChars
  rw [ltrim_rtrim_of_fix (ltrim_ltrim l), rtrim_rtrim]

theorem trimmed_jsTrim (s : String) : Trimmed (jsTrim s) := by
  show jsTrim (jsTrim s) = jsTrim s
  unfold jsTrim
  simp [trimChars_trimChars]

theorem trimmed_empty : Trimmed "" := rfl

theorem trimmed_safeString (o : Option Json) : Trimmed (safeString o) := by
  match o with
  | none => exact trimmed_empty
  | some .null => exact trimmed_empty
  | some (.bool b) => exact trimmed_jsTrim _
  | some (.num n) => exact trimmed_jsTrim _
  | some (.str s) => exact trimmed_jsTrim _
  | some (.arr xs) => exact trimmed_jsTrim _
  | some (.obj fs) => exact trimmed_jsTrim _

theorem dropWhile_of_all_false (p : Char → Bool) (l : List Char)
    (h : ∀ c ∈ l, p c = false) : l.dropWhile p = l := by
  induction l with
  | nil => rfl
  | cons a t ih =>
    have ha := h a (List.mem_cons_self a t)
    simp only [List.dropWhile, ha]

theorem trimChars_of_all_nonspace (l : List Char)
    (h : ∀ c ∈ l, isSpc c = false) : trimChars l = l := by
  unfold trimChars ltrim rtrim
  rw [dropWhile_of_all_false isSpc l h]
  rw [dropWhile_of_all_false isSpc l.reverse (by
    intro c hc
    exact h c (List.mem_reverse.mp hc))]
  exact List.reverse_reverse l

theorem trimmed_of_all_nonspace (s : String)
    (h : ∀ c ∈ s.data, isSpc c = false) : Trimmed s := by
  show jsTrim s = s
  unfold jsTrim
  rw [trimChars_of_all_nonspace s.data h]

/-! ## Lemmas: decimal rendering -/

theorem digitChar_val : ∀ d < 10, (Nat.digitChar d).toNat = 48 + d := by
  decide

theorem natChars_all_digit (n : Nat) :
    ∀ c ∈ natChars n, 48 ≤ c.toNat ∧ c.toNat ≤ 57 := by
  induction n using natChars.induct with
  | case1 n h =>
    intro c hc
    rw [natChars, dif_pos h] at hc
    have hv := digitChar_val n h
    simp only [List.mem_singleton] at hc
    subst hc
    omega
  | case2 n h ih =>
    intro c hc
    rw [natChars, dif_neg h] at hc
    rcases List.mem_append.mp hc with hl | hr
    · exact ih c hl
    · have hm : n % 10 < 10 := Nat.mod_lt _ (by decide)
      have hv := digitChar_val (n % 10) hm
      simp only [List.mem_singleton] at hr
      subst hr
      omega

theorem parseAcc_natChars (n : Nat) :
    ∀ a, parseAcc a (natChars n) = a * 10 ^ (natChars n).length + n := by
  induction n using natChars.induct with
  | case1 n h =>
    intro a
    rw [natChars, dif_pos h]
    simp [parseAcc, digitChar_val n h]
  | case2 n h ih =>
    intro a
    rw [natChars, dif_neg h]
    have hm : n % 10 < 10 := Nat.mod_lt _ (by decide)
    simp only [parseAcc, List.foldl_append, List.foldl_cons, List.foldl_nil,
      List.length_append, List.length_cons, List.length_nil]
    have hstep := ih a
    simp only [parseAcc] at hstep
    rw [hstep, digitChar_val (n % 10) hm]
    have hmod := Nat.div_add_mod n 10
    have hpow : 10 ^ ((natChars (n / 10)).length + (0 + 1)) =
        10 ^ (natChars (n / 10)).length * 10 := by
      simp [Nat.pow_succ]
    rw [hpow]
    ring_nf
    omega

theorem natChars_inj {n m : Nat} (h : natChars n = natChars m) : n = m := by
  have h1 := parseAcc_natChars n 0
  have h2 := parseAcc_natChars m 0
  simp only [Nat.zero_mul, Nat.zero_add] at h1 h2
  rw [← h1, ← h2, h]

theorem natChars_no_dash (n : Nat) : ∀ c ∈ natChars n, c ≠ '-' := by
  intro c hc he
  have := natChars_all_digit n c hc
  subst he
  revert this
  decide

theorem toNat_digit_nonspace (c : Char) (h1 : 48 ≤ c.toNat)
    (h2 : c.toNat ≤ 57) : isSpc c = false := by
  by_contra h
  simp only [isSpc, Bool.or_eq_true, beq_iff_eq, Bool.not_eq_false] at h
  rcases h with ((((((((h | h) | h) | h) | h) | h) | h) | h) | h) | h <;>
    (subst h; revert h1 h2; decide)

theorem natChars_nonspace (n : Nat) : ∀ c ∈ natChars n, isSpc c = false := by
  intro c hc
  have := natChars_all_digit n c hc
  exact toNat_digit_nonspace c this.1 this.2

theorem natChars_ne_nil (n : Nat) : natChars n ≠ [] := by
  by_cases h : n < 10
  · rw [natChars, dif_pos h]
    simp
  · rw [natChars, dif_neg h]
    simp

/-! ## Lemmas: generated identifiers -/

theorem strData_append (s t : String) : (s ++ t).data = s.data ++ t.data := by
  obtain ⟨l⟩ := s
  obtain ⟨m⟩ := t
  rfl

theorem strData_inj {s t : String} (h : s.data = t.data) : s = t := by
  obtain ⟨l⟩ := s
  obtain ⟨m⟩ := t
  simp only at h
  rw [h]

theorem genId_data (pre : String) (now i : Nat) :
    (genId pre now i).data = pre.data ++ (natChars now ++ ('-' :: natChars i)) := by
  simp [genId, strData_append, natRepr]

theorem append_dash_inj :
    ∀ (xs ys zs ws : List Char), (∀ c ∈ xs, c ≠ '-') → (∀ c ∈ ys, c ≠ '-') →
    xs ++ '-' :: zs = ys ++ '-' :: ws → xs = ys ∧ zs = ws := by
  intro xs
  induction xs with
  | nil =>
    intro ys zs ws _ hy h
    cases ys with
    | nil => simpa using h
    | cons b yt =>
      exfalso
      simp only [List.nil_append, List.cons_append, List.cons.injEq] at h
      exact hy b (List.mem_cons_self b yt) h.1.symm
  | cons a xt ih =>
    intro ys zs ws hx hy h
    cases ys with
    | nil =>
      exfalso
      simp only [List.cons_append, List.nil_append, List.cons.injEq] at h
      exact hx a (List.mem_cons_self a xt) h.1
    | cons b yt =>
      simp only [List.cons_append, List.cons.injEq] at h
      obtain ⟨hab, ht⟩ := h
      have := ih yt zs ws (fun c hc => hx c (List.mem_cons_of_mem a hc))
        (fun c hc => hy c (List.mem_cons_of_mem b hc)) ht
      exact ⟨by rw [hab, this.1], this.2⟩

theorem genId_inj_index (pre : String) (a b i j : Nat) (hij : i ≠ j) :
    genId pre a i ≠ genId pre b j := by
  intro he
  have hd := congrArg String.data he
  rw [genId_data, genId_data] at hd
  have := List.append_cancel_left hd
  have hsplit := append_dash_inj (natChars a) (natChars b) (natChars i)
    (natChars j) (natChars_no_dash a) (natChars_no_dash b) this
  exact hij (natChars_inj hsplit.2)

theorem genId_ne_empty (pre : String) (now i : Nat) :
    genId pre now i ≠ "" := by
  intro he
  have hd := congrArg String.data he
  rw [genId_data] at hd
  rcases List.append_eq_nil.mp hd with ⟨_, h2⟩
  exact natChars_ne_nil now (List.append_eq_nil.mp h2).1

theorem genId_trimmed (pre : String)
    (hpre : ∀ c ∈ pre.data, isSpc c = false) (now i : Nat) :
    Trimmed (genId pre now i) := by
  apply trimmed_of_all_nonspace
  intro c hc
  rw [genId_data] at hc
  rcases List.mem_append.mp hc with hl | hr
  · exact hpre c hl
  · rcases List.mem_append.mp hr with hl2 | hr2
    · exact natChars_nonspace now c hl2
    · rcases List.mem_cons.mp hr2 with hdash | hdig
      · subst hdash
        decide
      · exact natChars_nonspace i c hdig

theorem custom_pre_nonspace : ∀ c ∈ ("custom-" : String).data, isSpc c = false := by
  decide

theorem gallery_pre_nonspace : ∀ c ∈ ("gallery-" : String).data, isSpc c = false := by
  decide

/-! ## Lemmas: normalizers -/

theorem normalizeVehicle_trimmed (now : Nat) (v : Json) (i : Nat) :
    VehicleTrimmed (normalizeVehicle now v i) := by
  unfold normalizeVehicle VehicleTrimmed
  refine ⟨?_, trimmed_safeString _, trimmed_safeString _, trimmed_safeString _,
    trimmed_safeString _, trimmed_safeString _, ?_, trimmed_safeString _,
    trimmed_safeString _, trimmed_safeString _, trimmed_safeString _⟩
  · by_cases h : suppliedId v = ""
    · simp only [h, if_pos rfl]
      exact genId_trimmed _ custom_pre_nonspace now i
    · simp only [if_neg h]
      exact trimmed_safeString _
  · by_cases ha : safeString (getField v "alt") = ""
    · by_cases ht : safeString (getField v "title") = ""
      · simp only [ha, ht, if_pos rfl]
        exact trimmed_of_all_nonspace _ (by decide)
      · simp only [ha, if_pos rfl, if_neg ht]
        exact trimmed_safeString _
    · simp only [if_neg ha]
      exact trimmed_safeString _

theorem normalizeVehicle_id_ne (now : Nat) (v : Json) (i : Nat) :
    (normalizeVehicle now v i).id ≠ "" := by
  unfold normalizeVehicle
  by_cases h : suppliedId v = ""
  · simp only [h, if_pos rfl]
    exact genId_ne_empty _ now i
  · simpa [h] using h

theorem normalizeVehicle_id_kept (now : Nat) (v : Json) (i : Nat)
    (h : suppliedId v ≠ "") : (normalizeVehicle now v i).id = suppliedId v := by
  simp [normalizeVehicle, h]

theorem normalizeVehicle_id_gen (now : Nat) (v : Json) (i : Nat)
    (h : suppliedId v = "") :
    (normalizeVehicle now v i).id = genId "custom-" now i := by
  simp [normalizeVehicle, h]

theorem normalizeGalleryItem_trimmed (now : Nat) (g : Json) (i : Nat) :
    GalleryTrimmed (normalizeGalleryItem now g i) := by
  unfold normalizeGalleryItem GalleryTrimmed
  refine ⟨?_, trimmed_safeString _, trimmed_safeString _, trimmed_safeString _⟩
  by_cases h : suppliedId g = ""
  · simp only [h, if_pos rfl]
    exact genId_trimmed _ gallery_pre_nonspace now i
  · simp only [if_neg h]
    exact trimmed_safeString _

theorem normalizeGalleryItem_id_ne (now : Nat) (g : Json) (i : Nat) :
    (normalizeGalleryItem now g i).id ≠ "" := by
  unfold normalizeGalleryItem
  by_cases h : suppliedId g = ""
  · simp only [h, if_pos rfl]
    exact genId_ne_empty _ now i
  · simpa [h] using h

theorem normalizeGalleryItem_id_kept (now : Nat) (g : Json) (i : Nat)
    (h : suppliedId g ≠ "") :
    (normalizeGalleryItem now g i).id = suppliedId g := by
  simp [normalizeGalleryItem, h]

theorem normalizeGalleryItem_id_gen (now : Nat) (g : Json) (i : Nat)
    (h : suppliedId g = "") :
    (normalizeGalleryItem now g i).id = genId "gallery-" now i := by
  simp [normalizeGalleryItem, h]

/-! ## Lemmas: object store and indexed map -/

theorem getKey_setKey (d : Obj) (k : String) (v : Json) :
    getKey (setKey d k v) k = some v := by
  induction d with
  | nil => simp [setKey, getKey]
  | cons kv rest ih =>
    obtain ⟨k', w⟩ := kv
    by_cases h : k' = k
    · simp [setKey, getKey, h]
    · simp [setKey, getKey, h, ih]

theorem mapIdx_length (f : Nat → Json → α) :
    ∀ (l : List Json) (k : Nat), (mapIdx f k l).length = l.length := by
  intro l
  induction l with
  | nil => intro k; rfl
  | cons x xs ih =>
    intro k
    simp [mapIdx, ih]

theorem mapIdx_getD (f : Nat → Json → α) (d : α) :
    ∀ (l : List Json) (k i : Nat), i < l.length →
      (mapIdx f k l).getD i d = f (k + i) (l.getD i Json.null) := by
  intro l
  induction l with
  | nil =>
    intro k i h
    exact absurd h (by simp)
  | cons x xs ih =>
    intro k i h
    cases i with
    | zero => simp [mapIdx]
    | succ i' =>
      have h' : i' < xs.length := by simpa using h
      have := ih (k + 1) i' h'
      simp only [mapIdx, List.getD_cons_succ]
      rw [this]
      congr 1
      omega

theorem listOf_setKey (d : Obj) (k : String) (xs : List Json) :
    listOf (setKey d k (Json.arr xs)) k = Json.arr xs := by
  simp [listOf, getKey_setKey]

/-- In a well-shaped document every successful lookup yields an array. -/
theorem getKey_wellShaped {d : Obj} (h : wellShaped d = true) :
    ∀ (key : String) (w : Json), getKey d key = some w → isArr w = true := by
  unfold wellShaped at h
  rw [List.all_eq_true] at h
  intro key w hk
  induction d with
  | nil => simp [getKey] at hk
  | cons kv rest ih =>
    obtain ⟨k', u⟩ := kv
    by_cases he : k' = key
    · simp [getKey, he] at hk
      subst hk
      exact h (k', u) (List.mem_cons_self _ _)
    · simp [getKey, he] at hk
      exact ih (fun x hx => h x (List.mem_cons_of_mem _ hx)) hk

/-- Under a well-shaped default document, the reset fallback is always an
array. -/
theorem listOf_wellShaped (d : Obj) (h : wellShaped d = true) (lang : String) :
    ∃ xs, listOf d lang = Json.arr xs := by
  unfold listOf
  cases hl : getKey d lang with
  | some v =>
    cases v with
    | arr xs => exact ⟨xs, rfl⟩
    | _ =>
      exfalso
      have := getKey_wellShaped h lang _ hl
      simp [isArr] at this
  | none =>
    cases hm : getKey d "me" with
    | some v =>
      cases v with
      | arr ys => simp [truthy]
      | _ =>
        exfalso
        have := getKey_wellShaped h "me" _ hm
        simp [isArr] at this
    | none => exact ⟨[], rfl⟩

/-! ## Lemmas: list and reset bodies -/

theorem listBodyOk_listOf (d : Obj) (lang : String) :
    ListBodyOk d lang ⟨200, listOf d lang⟩ := by
  refine ⟨rfl, ?_, ?_⟩
  · intro xs h
    simp [listOf, h]
  · intro hna
    have hcase : listOf d lang =
        (match getKey d "me" with
         | some v => if truthy v then v else Json.arr []
         | none => Json.arr []) := by
      unfold listOf
      cases hl : getKey d lang with
      | none => rfl
      | some v =>
        cases v with
        | arr xs =>
          exfalso
          simp [isArrAt, hl, isArr] at hna
        | null => rfl
        | bool b => rfl
        | num n => rfl
        | str s => rfl
        | obj fs => rfl
    constructor
    · intro ys hme
      simp [hcase, hme, truthy]
    · intro hme
      simp [hcase, hme]

theorem resetBodyOk_listOf (d : Obj) (lang : String) :
    ResetBodyOk d lang ⟨200, listOf d lang⟩ := by
  refine ⟨rfl, ?_, ?_⟩
  · intro xs h
    simp [listOf, h]
  · intro hnone
    constructor
    · intro ys hme
      simp [listOf, hnone, hme, truthy]
    · intro hme
      simp [listOf, hnone, hme]

/-- A request whose storage read succeeds never touches the default
documents.  (This fails for `readErr = true` mutating requests: the
handler then writes through the aliased default document, see the C8
analysis.) -/
theorem step_preserves_defaults (st : ServerState) (op : Op)
    (hok : opReadOk op = true) :
    (step st op).defaultFleet = st.defaultFleet ∧
    (step st op).defaultGallery = st.defaultGallery := by
  cases op with
  | listF q r => exact ⟨rfl, rfl⟩
  | listG q r => exact ⟨rfl, rfl⟩
  | putF a q b n r w =>
    simp only [opReadOk, Bool.not_eq_true'] at hok
    subst hok
    cases a <;> cases w <;> simp [step, putFleet]
  | putG a q b n r w =>
    simp only [opReadOk, Bool.not_eq_true'] at hok
    subst hok
    cases a <;> cases w <;> simp [step, putGallery]
  | resetF a q r w =>
    simp only [opReadOk, Bool.not_eq_true'] at hok
    subst hok
    cases a <;> cases w <;> simp [step, resetFleet]
  | resetG a q r w =>
    simp only [opReadOk, Bool.not_eq_true'] at hok
    subst hok
    cases a <;> cases w <;> simp [step, resetGallery]
  | uploadOp a f now hex =>
    cases a with
    | false => exact ⟨rfl, rfl⟩
    | true =>
      cases f with
      | none => exact ⟨rfl, rfl⟩
      | some f =>
        by_cases h1 : strStartsWith f.mimetype "image/"
        · by_cases h2 : f.size ≤ 5 * 1024 * 1024 <;>
            simp [step, postUpload, h1, h2, errorHandler]
        · simp [step, postUpload, h1, errorHandler]

/-- Default documents survive any sequence of requests whose storage
reads all succeed (normal operation). -/
theorem runOps_preserves_defaults (st : ServerState) (ops : List Op)
    (hok : ∀ op ∈ ops, opReadOk op = true) :
    (runOps st ops).defaultFleet = st.defaultFleet ∧
    (runOps st ops).defaultGallery = st.defaultGallery := by
  induction ops generalizing st with
  | nil => exact ⟨rfl, rfl⟩
  | cons op rest ih =>
    have hs := step_preserves_defaults st op (hok op (List.mem_cons_self _ _))
    have hr := ih (step st op) (fun o ho => hok o (List.mem_cons_of_mem _ ho))
    exact ⟨hr.1.trans hs.1, hr.2.trans hs.2⟩

/-! ## Claims -/

/-- C1: every request to PUT /api/fleet, POST /api/fleet/reset,
PUT /api/gallery, POST /api/gallery/reset, or POST /api/upload whose
session does not carry the admin flag answers 401 with an error body and
leaves the stored documents and the upload directory unchanged. -/
theorem claim_C1_unauthorized_rejected (st : ServerState) (q : Option String)
    (body : Json) (nows : Nat → Nat) (r : Bool) (w : Option String)
    (file : Option UFile) (now : Nat) (hex : String) :
    putFleet st false q body nows r w = (⟨401, errorJson "Unauthorized"⟩, st) ∧
    resetFleet st false q r w = (⟨401, errorJson "Unauthorized"⟩, st) ∧
    putGallery st false q body nows r w = (⟨401, errorJson "Unauthorized"⟩, st) ∧
    resetGallery st false q r w = (⟨401, errorJson "Unauthorized"⟩, st) ∧
    postUpload st false file now hex = (⟨401, errorJson "Unauthorized"⟩, st) :=
  ⟨rfl, rfl, rfl, rfl, rfl⟩

/-- C5: `verifyPassword` uses the bcrypt comparison when a hash
credential is configured (the hash taking precedence), exact string
equality when only a plaintext credential is configured, and rejects
everything when neither is configured. -/
theorem claim_C5_verify_password (cfg : Config) (bc : String → String → Bool)
    (pw : String) :
    (envTruthy cfg.adminPasswordHash = true →
      verifyPassword cfg bc pw = bc pw (cfg.adminPasswordHash.getD "")) ∧
    (envTruthy cfg.adminPasswordHash = false →
      envTruthy cfg.adminPassword = true →
      (verifyPassword cfg bc pw = true ↔ pw = cfg.adminPassword.getD "")) ∧
    (envTruthy cfg.adminPasswordHash = false →
      envTruthy cfg.adminPassword = false →
      verifyPassword cfg bc pw = false) := by
  obtain ⟨plain, hash⟩ := cfg
  cases hash with
  | none =>
    cases plain with
    | none => simp [envTruthy, verifyPassword, verifyPlain]
    | some p =>
      by_cases hp : p = ""
      · subst hp
        simp [envTruthy, verifyPassword, verifyPlain]
      · simp [envTruthy, verifyPassword, verifyPlain, hp, beq_iff_eq]
  | some hs =>
    by_cases hh : hs = ""
    · subst hh
      cases plain with
      | none => simp [envTruthy, verifyPassword, verifyPlain]
      | some p =>
        by_cases hp : p = ""
        · subst hp
          simp [envTruthy, verifyPassword, verifyPlain]
        · simp [envTruthy, verifyPassword, verifyPlain, hp, beq_iff_eq]
    · cases plain with
      | none => simp [envTruthy, verifyPassword, verifyPlain, hh]
      | some p => simp [envTruthy, verifyPassword, verifyPlain, hh]

/-- Witness for C5 at concrete configurations. -/
theorem claim_C5_verify_password_witness :
    verifyPassword ⟨some "pw", some "hh"⟩ (fun _ _ => true) "anything" = true ∧
    (verifyPassword ⟨some "pw", none⟩ (fun _ _ => true) "pw" = true ↔
      ("pw" : String) = "pw") ∧
    verifyPassword ⟨none, none⟩ (fun _ _ => true) "pw" = false := by
  refine ⟨?_, ?_, ?_⟩
  · exact (claim_C5_verify_password ⟨some "pw", some "hh"⟩ (fun _ _ => true)
      "anything").1 (by decide)
  · simpa using (claim_C5_verify_password ⟨some "pw", none⟩ (fun _ _ => true)
      "pw").2.1 (by decide) (by decide)
  · exact (claim_C5_verify_password ⟨none, none⟩ (fun _ _ => true)
      "pw").2.2 (by decide) (by decide)

/-- C6, counterexample: the empty password is an invalid credential
(verification fails for it at this configuration), yet login answers 400
"Missing password", not the claimed 401. -/
theorem claim_C6_counterexample :
    verifyPassword ⟨some "secret", none⟩ (fun _ _ => false) "" = false ∧
    (login false ⟨some "secret", none⟩ (fun _ _ => false)
      (Json.obj [("password", Json.str "")])).1.status = 400 ∧
    (login false ⟨some "secret", none⟩ (fun _ _ => false)
      (Json.obj [("password", Json.str "")])).1.status ≠ 401 :=
  ⟨rfl, rfl, by decide⟩

/-- C6, amended: for every valid nonempty credential, login succeeds and
a following /me reports authed true; for every nonempty password failing
verification, login answers 401 and /me still reports authed false; for
the empty password, login answers 400 (not 401) and /me still reports
authed false. -/
theorem claim_C6_amended_login_me (cfg : Config) (bc : String → String → Bool)
    (pw : String) :
    (pw ≠ "" → verifyPassword cfg bc pw = true →
      (login false cfg bc (Json.obj [("password", Json.str pw)])).1.status = 200 ∧
      meEndpoint (login false cfg bc (Json.obj [("password", Json.str pw)])).2 =
        ⟨200, Json.obj [("authed", Json.bool true)]⟩) ∧
    (pw ≠ "" → verifyPassword cfg bc pw = false →
      (login false cfg bc (Json.obj [("password", Json.str pw)])).1.status = 401 ∧
      meEndpoint (login false cfg bc (Json.obj [("password", Json.str pw)])).2 =
        ⟨200, Json.obj [("authed", Json.bool false)]⟩) ∧
    (pw = "" →
      (login false cfg bc (Json.obj [("password", Json.str pw)])).1.status = 400 ∧
      meEndpoint (login false cfg bc (Json.obj [("password", Json.str pw)])).2 =
        ⟨200, Json.obj [("authed", Json.bool false)]⟩) := by
  refine ⟨?_, ?_, ?_⟩
  · intro hne hv
    simp [login, getField, getKey, meEndpoint, hne, hv, beq_iff_eq]
  · intro hne hv
    simp [login, getField, getKey, meEndpoint, hne, hv, beq_iff_eq]
  · intro he
    subst he
    simp [login, getField, getKey, meEndpoint]

/-- Witness for the amended C6 at a concrete configuration. -/
theorem claim_C6_amended_login_me_witness :
    ((login false ⟨some "pw", none⟩ (fun _ _ => false)
        (Json.obj [("password", Json.str "pw")])).1.status = 200 ∧
      meEndpoint (login false ⟨some "pw", none⟩ (fun _ _ => false)
        (Json.obj [("password", Json.str "pw")])).2 =
        ⟨200, Json.obj [("authed", Json.bool true)]⟩) ∧
    ((login false ⟨some "pw", none⟩ (fun _ _ => false)
        (Json.obj [("password", Json.str "wrong")])).1.status = 401) ∧
    ((login false ⟨some "pw", none⟩ (fun _ _ => false)
        (Json.obj [("password", Json.str "")])).1.status = 400) := by
  refine ⟨?_, ?_, ?_⟩
  · exact (claim_C6_amended_login_me ⟨some "pw", none⟩ (fun _ _ => false)
      "pw").1 (by decide) (by decide)
  · exact ((claim_C6_amended_login_me ⟨some "pw", none⟩ (fun _ _ => false)
      "wrong").2.1 (by decide) (by decide)).1
  · exact ((claim_C6_amended_login_me ⟨some "pw", none⟩ (fun _ _ => false)
      "").2.2 rfl).1

/-- C7, counterexample: a throwing storage write is surfaced by the
catch-all handler as status 400 carrying the error's own message (which
here exposes an internal path), not as a generic 500 server error. -/
theorem claim_C7_counterexample :
    (putFleet st0 true none (Json.arr []) (fun _ => 0) false
      (some "ENOENT: no such file or directory, open /srv/tuo/server/data/fleet.json")).1.status
       = 400 ∧
    (putFleet st0 true none (Json.arr []) (fun _ => 0) false
      (some "ENOENT: no such file or directory, open /srv/tuo/server/data/fleet.json")).1.status
       ≠ 500 ∧
    (putFleet st0 true none (Json.arr []) (fun _ => 0) false
      (some "ENOENT: no such file or directory, open /srv/tuo/server/data/fleet.json")).1.body
       = errorJson "ENOENT: no such file or directory, open /srv/tuo/server/data/fleet.json" :=
  ⟨rfl, by decide, rfl⟩

/-- C7, amended: when persisting the live document throws an error with
message `m`, every write endpoint surfaces it through the catch-all
handler as status 400 with body `{ error: m }` (the message is passed
through verbatim, internal paths included), the stored state is
unchanged and nothing is retried; the handler's 500 "Server error"
branch is reserved for a falsy error. -/
theorem claim_C7_amended_write_failure (st : ServerState) (q : Option String)
    (body : Json) (nows : Nat → Nat) (m : String) (hm : m ≠ "") :
    putFleet st true q body nows false (some m) = (⟨400, errorJson m⟩, st) ∧
    putGallery st true q body nows false (some m) = (⟨400, errorJson m⟩, st) ∧
    resetFleet st true q false (some m) = (⟨400, errorJson m⟩, st) ∧
    resetGallery st true q false (some m) = (⟨400, errorJson m⟩, st) ∧
    errorHandler none = ⟨500, errorJson "Server error"⟩ := by
  refine ⟨?_, ?_, ?_, ?_, rfl⟩ <;>
    simp [putFleet, putGallery, resetFleet, resetGallery, errorHandler, hm]

/-- Witness for the amended C7 at a concrete failing write. -/
theorem claim_C7_amended_write_failure_witness :
    putFleet st0 true none (Json.arr []) (fun _ => 0) false (some "boom") =
      (⟨400, errorJson "boom"⟩, st0) ∧
    resetGallery st0 true none false (some "boom") = (⟨400, errorJson "boom"⟩, st0) := by
  have h := claim_C7_amended_write_failure st0 none (Json.arr []) (fun _ => 0)
    "boom" (by decide)
  exact ⟨h.1, h.2.2.2.1⟩

/-- C9: an authenticated upload whose declared content type is not an
image is answered 400 with an error message and writes nothing; an image
within the 5 MiB limit is accepted and stored. -/
theorem claim_C9_upload_filter (st : ServerState) (f : UFile) (now : Nat)
    (hex : String) :
    (strStartsWith f.mimetype "image/" = false →
      postUpload st true (some f) now hex =
        (⟨400, errorJson "Only images are allowed"⟩, st)) ∧
    (strStartsWith f.mimetype "image/" = true → f.size ≤ 5 * 1024 * 1024 →
      (postUpload st true (some f) now hex).1.status = 200 ∧
      (postUpload st true (some f) now hex).2.uploads =
        st.uploads ++ [uploadName now hex f.originalname]) := by
  constructor
  · intro h
    simp [postUpload, errorHandler, h]
  · intro h hs
    simp [postUpload, errorHandler, h, hs]

/-- Witness for C9: a text file is rejected without a write, a small PNG
is accepted and stored. -/
theorem claim_C9_upload_filter_witness :
    postUpload st0 true (some ⟨"a.txt", "text/plain", 10⟩) 1 "ab" =
      (⟨400, errorJson "Only images are allowed"⟩, st0) ∧
    (postUpload st0 true (some ⟨"a.png", "image/png", 10⟩) 1 "ab").1.status = 200 := by
  constructor
  · exact (claim_C9_upload_filter st0 ⟨"a.txt", "text/plain", 10⟩ 1 "ab").1
      (by decide)
  · exact ((claim_C9_upload_filter st0 ⟨"a.png", "image/png", 10⟩ 1 "ab").2
      (by decide) (by decide)).1

/-- C10, counterexample: an authenticated PUT /api/fleet whose JSON body
is the top-level string "x" is rejected 400 by the JSON body parser's
strict mode before the handler runs, and the stored documents are
unchanged — not the claimed 200 with the empty array. -/
theorem claim_C10_counterexample :
    (putFleetRoute st0 true none (Body.json (Json.str "x"))
      (fun _ => 0) false none).1.status = 400 ∧
    (putFleetRoute st0 true none (Body.json (Json.str "x"))
      (fun _ => 0) false none).1.status ≠ 200 ∧
    (putFleetRoute st0 true none (Body.json (Json.str "x"))
      (fun _ => 0) false none).2 = st0 :=
  ⟨rfl, by decide, rfl⟩

/-- C10, amended: an authenticated PUT whose body reaches the handler as
a non-array value — a top-level JSON object, or a request the JSON
parser did not handle (whose body stays the empty object) — is not
rejected: it is handled exactly as the empty list, so the language's
stored list becomes empty and the response is 200 with `[]`.  Top-level
JSON strings and numbers, by contrast, are rejected 400 by
`express.json`'s default strict mode before the handler, leaving the
stored documents unchanged. -/
theorem claim_C10_amended_non_array_body (st : ServerState)
    (q : Option String) (nows : Nat → Nat) :
    (∀ fs, putFleetRoute st true q (Body.json (Json.obj fs)) nows false none =
      (⟨200, Json.arr []⟩,
        { st with fleet := setKey st.fleet (getLang q) (Json.arr []) })) ∧
    (putFleetRoute st true q Body.noJson nows false none =
      (⟨200, Json.arr []⟩,
        { st with fleet := setKey st.fleet (getLang q) (Json.arr []) })) ∧
    (listFleet (putFleetRoute st true q Body.noJson nows false none).2 q
      false).body = Json.arr [] ∧
    (∀ fs, putGalleryRoute st true q (Body.json (Json.obj fs)) nows false none =
      (⟨200, Json.arr []⟩,
        { st with gallery := setKey st.gallery (getLang q) (Json.arr []) })) ∧
    (putGalleryRoute st true q Body.noJson nows false none =
      (⟨200, Json.arr []⟩,
        { st with gallery := setKey st.gallery (getLang q) (Json.arr []) })) ∧
    (listGallery (putGalleryRoute st true q Body.noJson nows false none).2 q
      false).body = Json.arr [] ∧
    (∀ v, jsonStrictOk v = false →
      putFleetRoute st true q (Body.json v) nows false none =
        (⟨400, errorJson strictRejectMsg⟩, st) ∧
      putGalleryRoute st true q (Body.json v) nows false none =
        (⟨400, errorJson strictRejectMsg⟩, st)) := by
  have hf : ∀ fs, putFleetRoute st true q (Body.json (Json.obj fs)) nows false none =
      (⟨200, Json.arr []⟩,
        { st with fleet := setKey st.fleet (getLang q) (Json.arr []) }) := by
    intro fs
    simp [putFleetRoute, jsonStrictOk, putFleet, readDoc, normFleetBatch, mapIdx]
  have hfn : putFleetRoute st true q Body.noJson nows false none =
      (⟨200, Json.arr []⟩,
        { st with fleet := setKey st.fleet (getLang q) (Json.arr []) }) := by
    simp [putFleetRoute, putFleet, readDoc, normFleetBatch, mapIdx]
  have hg : ∀ fs, putGalleryRoute st true q (Body.json (Json.obj fs)) nows false none =
      (⟨200, Json.arr []⟩,
        { st with gallery := setKey st.gallery (getLang q) (Json.arr []) }) := by
    intro fs
    simp [putGalleryRoute, jsonStrictOk, putGallery, readDoc, normGalleryBatch, mapIdx]
  have hgn : putGalleryRoute st true q Body.noJson nows false none =
      (⟨200, Json.arr []⟩,
        { st with gallery := setKey st.gallery (getLang q) (Json.arr []) }) := by
    simp [putGalleryRoute, putGallery, readDoc, normGalleryBatch, mapIdx]
  refine ⟨hf, hfn, ?_, hg, hgn, ?_, ?_⟩
  · rw [hfn]
    simp [listFleet, readDoc, listOf_setKey]
  · rw [hgn]
    simp [listGallery, readDoc, listOf_setKey]
  · intro v hv
    cases v <;> simp_all [putFleetRoute, putGalleryRoute, jsonStrictOk,
      errorHandler, strictRejectMsg]

/-- Witness for the amended C10: an object body empties the stored list
with a 200 response, a top-level string body is rejected 400 with the
state unchanged. -/
theorem claim_C10_amended_non_array_body_witness :
    (putFleetRoute st0 true none (Body.json (Json.obj [("a", Json.num 1)]))
      (fun _ => 0) false none).1.body = Json.arr [] ∧
    (listFleet (putFleetRoute st0 true none Body.noJson
      (fun _ => 0) false none).2 none false).body = Json.arr [] ∧
    putFleetRoute st0 true none (Body.json (Json.num 5))
      (fun _ => 0) false none = (⟨400, errorJson strictRejectMsg⟩, st0) := by
  have h := claim_C10_amended_non_array_body st0 none (fun _ => 0)
  refine ⟨?_, h.2.2.1, (h.2.2.2.2.2.2 (Json.num 5) rfl).1⟩
  rw [(h.1 [("a", Json.num 1)])]

/-- C4: for every language, the GET endpoints read the live document and
return its list at the requested key when that key holds a list, falling
back to the live document's "me" list, or to the empty list when that
too is absent; the status is always 200 (never an error). -/
theorem claim_C4_list_fallback (st : ServerState) (q : Option String) :
    ListBodyOk st.fleet (getLang q) (listFleet st q false) ∧
    ListBodyOk st.gallery (getLang q) (listGallery st q false) :=
  ⟨listBodyOk_listOf st.fleet (getLang q), listBodyOk_listOf st.gallery (getLang q)⟩

/-- Witness for C4: present key, fallback to "me", and empty-document
cases at concrete states. -/
theorem claim_C4_list_fallback_witness :
    (listFleet st0 none false).body = Json.arr [Json.num 1] ∧
    (listFleet ⟨[("me", Json.arr [Json.num 7])], [], [], [], []⟩ (some "en") false).body
      = Json.arr [Json.num 7] ∧
    (listFleet ⟨[], [], [], [], []⟩ (some "en") false).body = Json.arr [] ∧
    (listFleet st0 none false).status = 200 := by
  refine ⟨?_, ?_, ?_, ?_⟩
  · exact (claim_C4_list_fallback st0 none).1.2.1 [Json.num 1] rfl
  · exact ((claim_C4_list_fallback
      ⟨[("me", Json.arr [Json.num 7])], [], [], [], []⟩ (some "en")).1.2.2
      (by decide)).1 [Json.num 7] rfl
  · exact ((claim_C4_list_fallback ⟨[], [], [], [], []⟩ (some "en")).1.2.2
      (by decide)).2 rfl
  · exact (claim_C4_list_fallback st0 none).1.1

/-- C3: for every language, an authenticated reset returns exactly the
default document's list for that language (or the default document's
"me" list, or the empty list, when the language is absent in the
defaults), regardless of the current live document, and persists the
result so that a subsequent list returns the same data.  The default
documents are assumed well-shaped (every language key holds a list), as
the spec's data model prescribes. -/
theorem claim_C3_reset_to_defaults (st : ServerState) (q : Option String)
    (hF : wellShaped st.defaultFleet = true)
    (hG : wellShaped st.defaultGallery = true) :
    ResetBodyOk st.defaultFleet (getLang q) (resetFleet st true q false none).1 ∧
    (listFleet (resetFleet st true q false none).2 q false).body =
      (resetFleet st true q false none).1.body ∧
    ResetBodyOk st.defaultGallery (getLang q) (resetGallery st true q false none).1 ∧
    (listGallery (resetGallery st true q false none).2 q false).body =
      (resetGallery st true q false none).1.body := by
  obtain ⟨xs, hxs⟩ := listOf_wellShaped st.defaultFleet hF (getLang q)
  obtain ⟨ys, hys⟩ := listOf_wellShaped st.defaultGallery hG (getLang q)
  refine ⟨resetBodyOk_listOf st.defaultFleet (getLang q), ?_,
    resetBodyOk_listOf st.defaultGallery (getLang q), ?_⟩
  · show (listFleet
      { st with fleet := setKey st.fleet (getLang q) (listOf st.defaultFleet (getLang q)) }
      q false).body = listOf st.defaultFleet (getLang q)
    simp [listFleet, readDoc, hxs, listOf_setKey]
  · show (listGallery
      { st with gallery := setKey st.gallery (getLang q) (listOf st.defaultGallery (getLang q)) }
      q false).body = listOf st.defaultGallery (getLang q)
    simp [listGallery, readDoc, hys, listOf_setKey]

/-- Witness for C3: resetting a replaced live fleet list restores the
default document's list and the subsequent list call sees it. -/
theorem claim_C3_reset_to_defaults_witness :
    (resetFleet st0 true none false none).1.body = Json.arr [Json.num 3] ∧
    (listFleet (resetFleet st0 true none false none).2 none false).body =
      (resetFleet st0 true none false none).1.body := by
  have h := claim_C3_reset_to_defaults st0 none (by decide) (by decide)
  exact ⟨h.1.2.1 [Json.num 3] rfl, h.2.1⟩

/-- C8: the claim (and the spec's invariant) say the in-memory default
documents are never mutated by runtime operations — but the code
violates this on the read-failure path: `readFleet()` then returns the
aliased in-memory default object, so an authenticated replace's
`data[lang] = normalized` writes into `defaultFleet` itself.  Evaluating
the code at the failing input: a replace of "me" with `[]` while the
live file is unreadable rewrites the default document's "me" list to
`[]`, and a later reset (with a healthy read) serves that `[]` instead
of the original default `[3]`. -/
theorem claim_C8_replace_mutates_defaults :
    (putFleet st0 true none (Json.arr []) (fun _ => 0) true none).2.defaultFleet
      = [("me", Json.arr [])] ∧
    (putFleet st0 true none (Json.arr []) (fun _ => 0) true none).2.defaultFleet
      ≠ st0.defaultFleet ∧
    (resetFleet (putFleet st0 true none (Json.arr []) (fun _ => 0) true none).2
      true none false none).1.body = Json.arr [] ∧
    (resetFleet st0 true none false none).1.body = Json.arr [Json.num 3] := by
  refine ⟨rfl, ?_, rfl, rfl⟩
  intro h
  have h2 : [("me", Json.arr ([] : List Json))] =
      [("me", Json.arr [Json.num 3])] := h
  simp at h2

/-- C2: an authenticated replace of either domain echoes and persists
the normalized batch, which has the same length as the submitted list;
every field of every returned record is a trimmed string; every record
has a non-empty id; supplied (trimmed-non-empty) ids are kept; generated
ids are pairwise distinct within the batch. -/
theorem claim_C2_replace_normalizes (st : ServerState) (q : Option String)
    (nows : Nat → Nat) (l : List Json) :
    FleetReplaceOk st q nows l ∧ GalleryReplaceOk st q nows l := by
  constructor
  · refine ⟨rfl, rfl, mapIdx_length _ l 0, ?_, ?_, ?_⟩
    · have h2 : (putFleet st true q (Json.arr l) nows false none).2 =
          { st with fleet := (setKey st.fleet (getLang q)
              (Json.arr ((normFleetBatch nows l).map vehicleToJson))) } := rfl
      rw [h2]
      simp [listFleet, readDoc, listOf_setKey]
    · intro i hi
      have hgd : (normFleetBatch nows l).getD i emptyVehicle =
          normalizeVehicle (nows i) (l.getD i Json.null) i := by
        have := mapIdx_getD (fun k v => normalizeVehicle (nows k) v k)
          emptyVehicle l 0 i hi
        simpa [normFleetBatch] using this
      rw [hgd]
      exact ⟨normalizeVehicle_trimmed _ _ _, normalizeVehicle_id_ne _ _ _,
        fun hsup => normalizeVehicle_id_kept _ _ _ hsup⟩
    · intro i j hi hj hij hsi hsj
      have hgdi : (normFleetBatch nows l).getD i emptyVehicle =
          normalizeVehicle (nows i) (l.getD i Json.null) i := by
        have := mapIdx_getD (fun k v => normalizeVehicle (nows k) v k)
          emptyVehicle l 0 i hi
        simpa [normFleetBatch] using this
      have hgdj : (normFleetBatch nows l).getD j emptyVehicle =
          normalizeVehicle (nows j) (l.getD j Json.null) j := by
        have := mapIdx_getD (fun k v => normalizeVehicle (nows k) v k)
          emptyVehicle l 0 j hj
        simpa [normFleetBatch] using this
      rw [hgdi, hgdj, normalizeVehicle_id_gen _ _ _ hsi,
        normalizeVehicle_id_gen _ _ _ hsj]
      exact genId_inj_index _ _ _ i j hij
  · refine ⟨rfl, rfl, mapIdx_length _ l 0, ?_, ?_, ?_⟩
    · have h2 : (putGallery st true q (Json.arr l) nows false none).2 =
          { st with gallery := (setKey st.gallery (getLang q)
              (Json.arr ((normGalleryBatch nows l).map galleryToJson))) } := rfl
      rw [h2]
      simp [listGallery, readDoc, listOf_setKey]
    · intro i hi
      have hgd : (normGalleryBatch nows l).getD i emptyGalleryItem =
          normalizeGalleryItem (nows i) (l.getD i Json.null) i := by
        have := mapIdx_getD (fun k v => normalizeGalleryItem (nows k) v k)
          emptyGalleryItem l 0 i hi
        simpa [normGalleryBatch] using this
      rw [hgd]
      exact ⟨normalizeGalleryItem_trimmed _ _ _, normalizeGalleryItem_id_ne _ _ _,
        fun hsup => normalizeGalleryItem_id_kept _ _ _ hsup⟩
    · intro i j hi hj hij hsi hsj
      have hgdi : (normGalleryBatch nows l).getD i emptyGalleryItem =
          normalizeGalleryItem (nows i) (l.getD i Json.null) i := by
        have := mapIdx_getD (fun k v => normalizeGalleryItem (nows k) v k)
          emptyGalleryItem l 0 i hi
        simpa [normGalleryBatch] using this
      have hgdj : (normGalleryBatch nows l).getD j emptyGalleryItem =
          normalizeGalleryItem (nows j) (l.getD j Json.null) j := by
        have := mapIdx_getD (fun k v => normalizeGalleryItem (nows k) v k)
          emptyGalleryItem l 0 j hj
        simpa [normGalleryBatch] using this
      rw [hgdi, hgdj, normalizeGalleryItem_id_gen _ _ _ hsi,
        normalizeGalleryItem_id_gen _ _ _ hsj]
      exact genId_inj_index _ _ _ i j hij

/-- Witness for C2: in a concrete three-record batch, a record with a
supplied id keeps it and the two records without one receive distinct
generated ids. -/
theorem claim_C2_replace_normalizes_witness :
    ((normFleetBatch (fun _ => 9)
        [Json.obj [("id", Json.str "x")], Json.obj [], Json.obj []]).getD 0
        emptyVehicle).id =
      suppliedId (([Json.obj [("id", Json.str "x")], Json.obj [],
        Json.obj []] : List Json).getD 0 Json.null) ∧
    ((normFleetBatch (fun _ => 9)
        [Json.obj [("id", Json.str "x")], Json.obj [], Json.obj []]).getD 1
        emptyVehicle).id ≠
      ((normFleetBatch (fun _ => 9)
        [Json.obj [("id", Json.str "x")], Json.obj [], Json.obj []]).getD 2
        emptyVehicle).id := by
  have h := (claim_C2_replace_normalizes st0 none (fun _ => 9)
    [Json.obj [("id", Json.str "x")], Json.obj [], Json.obj []]).1
  obtain ⟨-, -, -, -, hidx, hdis⟩ := h
  constructor
  · refine (hidx 0 (by decide)).2.2 ?_
    show suppliedId (Json.obj [("id", Json.str "x")]) ≠ ""
    simp [suppliedId, safeString, getField, getKey, jsToString]
    decide
  · exact hdis 1 2 (by decide) (by decide) (by decide) rfl rfl

end TUO
